import Mathlib

/-!
Shallow embedding of the vmpinning hypervisor state adapter and control loop
(`schedulerlocal/domain/libvirtconnector.py` and `schedulerlocal/schedulerlocal.py`),
together with theorems settling the behaviour of the adapter operations.

Machine integers of the source (nanosecond timestamps, cumulative CPU-time
counters, memory counters) are modelled as `ℤ`/`ℕ`; Python's true division is
modelled exactly in `ℚ`.  Python exceptions are modelled with `Except`:
`ConsumerNotAlived` raised by the adapter becomes `AdapterError.consumerNotAlived`,
and an uncaught hypervisor-library error that would escape becomes
`AdapterError.libvirtError`.  Hypervisor reads performed by an operation are
passed in as explicit arguments (a failed read is `none`), and the side effects
of an operation (descriptor writes, warnings, pin writes, sleeps) are returned
explicitly in its result.
-/

/-- Exceptional outcomes of an adapter operation: `consumerNotAlived` models the
`ConsumerNotAlived` exception the adapter itself raises; `libvirtError` models a
`libvirt.libvirtError` that escapes uncaught. -/
inductive AdapterError where
  | consumerNotAlived
  | libvirtError
deriving DecidableEq

/-- Modelled from the spec: the sample `DomainEntity` stores via `set_time`
and yields via `get_time` (the class `DomainEntity` of
`schedulerlocal/domain/domainentity.py` is not under `src/`; the spec describes
`last_sample` as the optional tuple `(epoch_ns, total_cpu_time, system_time,
user_time)`). -/
structure TimeSample where
  epoch_ns : ℤ
  total : ℤ
  system : ℤ
  user : ℤ
deriving DecidableEq

/-- Modelled from the spec: the Resource Entity (`DomainEntity`, whose class
body is not under `src/`): uuid, name, memory capacity, vCPU count, last
observed pin state, oversubscription ratio, and the optional `last_sample`
which is absent until the first successful usage read.  `has_time` is
`last_sample.isSome`, `get_time` reads it, `set_time` overwrites it. -/
structure DomainEntity where
  uuid : String
  name : String
  mem : ℕ
  cpu : ℕ
  cpu_pin : List (List Bool)
  cpu_ratio : ℚ
  last_sample : Option TimeSample := none
deriving DecidableEq

/-- `DomainEntity.set_time` as described by the spec: mutate `last_sample` in
place; modelled functionally as a record update. -/
def DomainEntity.set_time (vm : DomainEntity) (epoch_ns total system user : ℤ) :
    DomainEntity :=
  { vm with last_sample := some ⟨epoch_ns, total, system, user⟩ }

/-- `LibvirtConnector.get_usage_cpu` (libvirtconnector.py, lines 171-199).
Hypervisor interactions are explicit arguments: `lookup_ok` is whether
`conn.lookupByUUIDString` succeeds (it is called outside the `try` block, so
its failure escapes as `libvirtError`), `stats` is the result of
`virDomain.getCPUStats` (`none` when it raises `libvirt.libvirtError`, in which
case the code raises `ConsumerNotAlived`), and `epoch_ns` is `time.time_ns()`.
Returns the computed `cpu_usage_norm` together with the entity after
`vm.set_time`. -/
def get_usage_cpu (vm : DomainEntity) (lookup_ok : Bool) (epoch_ns : ℤ)
    (stats : Option (ℤ × ℤ × ℤ)) : Except AdapterError (Option ℚ × DomainEntity) :=
  if ¬ lookup_ok then .error .libvirtError else
  match stats with
  | none => .error .consumerNotAlived
  | some (total, system, user) =>
    let cpu_usage_norm : Option ℚ :=
      match vm.last_sample with
      | none => none
      | some prev =>
        let cpu_usage : ℚ := ((total : ℚ) - prev.total) / ((epoch_ns : ℚ) - prev.epoch_ns)
        let norm : ℚ := cpu_usage / (vm.cpu : ℚ)
        if norm > 1 then some 1 else some norm
    .ok (cpu_usage_norm, vm.set_time epoch_ns total system user)

/-- `LibvirtConnector.get_usage_mem` (libvirtconnector.py, lines 201-223).
`stats` is the result of `virDomain.memoryStats` projected to its
`rss` and `actual` keys (`none` when the call raises `libvirt.libvirtError`,
turned into `ConsumerNotAlived`); `lookup_ok` as in `get_usage_cpu`. -/
def get_usage_mem (vm : DomainEntity) (lookup_ok : Bool)
    (stats : Option (ℕ × ℕ)) : Except AdapterError ℚ :=
  if ¬ lookup_ok then .error .libvirtError else
  match stats with
  | none => .error .consumerNotAlived
  | some (rss, actual) =>
    let usage : ℚ := (rss : ℚ) / (actual : ℚ)
    if usage > 1 then .ok 1 else .ok usage

/-- `LibvirtConnector.update_cpu_pinning` (libvirtconnector.py, lines 118-142).
`vm_pin` is the result of `virDomain.vcpuPinInfo()` read at call time; the
returned list records the `virDomain.pinVcpu(vcpu, template_pin)` writes issued,
in order. -/
def update_cpu_pinning (vm_pin : List (List Bool)) (template_pin : List Bool) :
    List (ℕ × List Bool) :=
  let update_needed := vm_pin.any (fun vcpu_pin => vcpu_pin ≠ template_pin)
  if update_needed then
    (List.range vm_pin.length).map (fun vcpu => (vcpu, template_pin))
  else []

/-- Python list index assignment `template_pin[i] = True`: raises `IndexError`
(modelled as `none`) when `i` is out of range. -/
def list_assign_true (template_pin : List Bool) (i : ℕ) : Option (List Bool) :=
  if i < template_pin.length then some (template_pin.set i true) else none

/-- `LibvirtConnector.build_cpu_pinning` (libvirtconnector.py, lines 144-162).
`cpu_list` carries the `cpu.get_cpu_id()` values of the given ServerCPU list;
`host_config` is the host core count.  An out-of-range id raises `IndexError`
at the offending assignment (`none`). -/
def build_cpu_pinning (cpu_list : List ℕ) (host_config : ℕ) : Option (List Bool) :=
  cpu_list.foldlM list_assign_true (List.replicate host_config false)

/-- The entity cache `self.cache_entity` (a Python dict keyed by uuid),
modelled as an association list where `cache_put` overwrites. -/
def Cache := List (String × DomainEntity)
deriving DecidableEq

/-- Dict lookup `self.cache_entity[uuid]` / membership `uuid in self.cache_entity`. -/
def cache_get (cache : Cache) (uuid : String) : Option DomainEntity :=
  List.lookup uuid cache

/-- Dict assignment `self.cache_entity[uuid] = entity` (overwrites any previous
binding of `uuid`). -/
def cache_put (cache : Cache) (uuid : String) (entity : DomainEntity) : Cache :=
  (uuid, entity) :: List.filter (fun p => p.1 ≠ uuid) cache

/-- The data `convert_to_entitydomain` reads from the hypervisor for one
`virDomain` handle: `UUIDString`, `name`, `maxMemory`, `maxVcpus`,
`vcpuPinInfo`, and the descriptor metadata.  `has_oversub` abstracts the
descriptor's XML: modelled from the spec, `xmlDomainMetaData` (whose class body
is not under `src/`) reports `updated() = true` exactly when the
oversubscription ratio was absent and defaults were generated, and
`get_oversub_ratios()['cpu']` yields the persisted ratio when present
(`oversub_cpu`) or the generated default otherwise. -/
structure VirDomain where
  uuid : String
  name : String
  maxMemory : ℕ
  maxVcpus : ℕ
  vcpuPinInfo : List (List Bool)
  has_oversub : Bool
  oversub_cpu : ℚ
deriving DecidableEq

/-- Result of one `convert_to_entitydomain` call: the returned entity, the
connector's cache afterwards, the number of `conn.defineXML` descriptor write
attempts issued, and the warnings printed (each naming the VM). -/
structure ConvertResult where
  entity : DomainEntity
  cache : Cache
  descriptor_writes : ℕ
  warnings : List String
deriving DecidableEq

/-- The entity built by the non-cached branch of `convert_to_entitydomain`
(libvirtconnector.py, lines 102-115): general info read from the handle, the
metadata manager's cpu ratio, and no `last_sample` (the `DomainEntity`
constructor takes none). -/
def read_entity (virDomain : VirDomain) (default_ratio : ℚ) : DomainEntity :=
  { uuid := virDomain.uuid, name := virDomain.name, mem := virDomain.maxMemory,
    cpu := virDomain.maxVcpus, cpu_pin := virDomain.vcpuPinInfo,
    cpu_ratio := if virDomain.has_oversub then virDomain.oversub_cpu else default_ratio,
    last_sample := none }

/-- `LibvirtConnector.convert_to_entitydomain` (libvirtconnector.py, lines
83-116).  `default_ratio` is the default the metadata manager generates when
the descriptor has no oversubscription ratio (modelled from the spec, its
concrete value living outside `src/`). -/
def convert_to_entitydomain (cache : Cache) (virDomain : VirDomain)
    (default_ratio : ℚ) (force_update : Bool := false) : ConvertResult :=
  let uuid := virDomain.uuid
  match (if ¬ force_update then cache_get cache uuid else none) with
  | some cached => ⟨cached, cache, 0, []⟩
  | none =>
    let updated := ¬ virDomain.has_oversub
    let entity : DomainEntity := read_entity virDomain default_ratio
    ⟨entity, cache_put cache uuid entity,
      if updated then 1 else 0,
      if updated then [virDomain.name] else []⟩

/-- Observable behaviour of one iteration of `SchedulerLocal.run`
(schedulerlocal.py, lines 26-38): the wall-clock nanosecond instant
`time_begin` at which the tick body started, the `time_since_launch` argument
passed to `__iteration` (Python `int((time_begin-launch_at)/(10**9))`, which for
the loop's nonnegative elapsed times is the floor), the seconds slept after the
body, and the overlap warning printed instead of sleeping (carrying
`-(time_to_sleep/10**9)`). -/
structure TickResult where
  time_begin : ℚ
  time_since_launch : ℤ
  sleep_s : ℚ
  overlap_warning : Option ℚ
deriving DecidableEq

/-- One iteration of the `while True` body of `SchedulerLocal.run`, at wall
clock `time_begin` (ns) with a tick body lasting `d` ns, so that
`time.time_ns() - time_begin = d` when `time_to_sleep` is computed. -/
def run_tick (delay launch_at time_begin d : ℚ) : TickResult :=
  let time_since_launch : ℤ := Int.floor ((time_begin - launch_at) / 10 ^ 9)
  let time_to_sleep : ℚ := delay * 10 ^ 9 - d
  if time_to_sleep > 0 then ⟨time_begin, time_since_launch, time_to_sleep / 10 ^ 9, none⟩
  else ⟨time_begin, time_since_launch, 0, some (-(time_to_sleep / 10 ^ 9))⟩

/-- `SchedulerLocal.run` unrolled over a finite prefix of ticks whose body
durations (ns) are `ds`: each iteration starts at the wall clock reached after
the previous body and sleep (the loop proceeds immediately, `launch_at` is
fixed once before the loop). -/
def run_loop (delay launch_at : ℚ) : ℚ → List ℚ → List TickResult
  | _, [] => []
  | time_begin, d :: ds =>
    let tr := run_tick delay launch_at time_begin d
    tr :: run_loop delay launch_at (time_begin + d + tr.sleep_s * 10 ^ 9) ds

/-- Decidable equality of modelled operation outcomes, so that concrete runs
can be checked by evaluation. -/
instance {ε α : Type} [DecidableEq ε] [DecidableEq α] : DecidableEq (Except ε α) :=
  fun x y =>
    match x, y with
    | .error a, .error b =>
      if h : a = b then .isTrue (by rw [h]) else .isFalse (by intro hc; cases hc; exact h rfl)
    | .error _, .ok _ => .isFalse (by intro hc; cases hc)
    | .ok _, .error _ => .isFalse (by intro hc; cases hc)
    | .ok a, .ok b =>
      if h : a = b then .isTrue (by rw [h]) else .isFalse (by intro hc; cases hc; exact h rfl)

/-- Concrete VM handle (oversubscription ratio present) used by witnesses. -/
def vd_oversub : VirDomain := ⟨"u0", "vm0", 2048, 2, [[true]], true, 3⟩

/-- Concrete VM handle with no oversubscription ratio, used by witnesses. -/
def vd_missing : VirDomain := ⟨"u1", "vm1", 1024, 1, [[true]], false, 0⟩

/-- C2: when the VM was enumerated but has since stopped running (the handle is
still resolvable and the stat query raises `libvirt.libvirtError`), both
`get_usage_cpu` and `get_usage_mem` raise exactly `ConsumerNotAlived`: the
modelled operations, which are total over all remaining inputs, yield
`.error .consumerNotAlived` and no other exceptional outcome. -/
theorem C2_stat_failure_raises_consumer_not_alived (vm : DomainEntity) (epoch_ns : ℤ) :
    get_usage_cpu vm true epoch_ns none = .error .consumerNotAlived ∧
    get_usage_mem vm true none = .error .consumerNotAlived :=
  ⟨rfl, rfl⟩

/-- C8: a first successful `get_usage_cpu` call on an entity with no stored
sample does not fail, returns `none` ("no value"), and stores the sample on
the entity. -/
theorem C8_first_call_stores_sample_returns_none (vm : DomainEntity)
    (epoch_ns total system user : ℤ) (h : vm.last_sample = none) :
    get_usage_cpu vm true epoch_ns (some (total, system, user)) =
      .ok (none, { vm with last_sample := some ⟨epoch_ns, total, system, user⟩ }) := by
  simp [get_usage_cpu, DomainEntity.set_time, h]

/-- Witness for C8 at a concrete fresh entity. -/
theorem C8_witness :
    get_usage_cpu ⟨"u0", "vm0", 2048, 2, [[true]], 1, none⟩ true 5 (some (7, 2, 3)) =
      .ok (none, ⟨"u0", "vm0", 2048, 2, [[true]], 1, some ⟨5, 7, 2, 3⟩⟩) :=
  C8_first_call_stores_sample_returns_none ⟨"u0", "vm0", 2048, 2, [[true]], 1, none⟩ 5 7 2 3 rfl

/-- C9: a successful `get_usage_mem` call (the `actual` counter being nonzero,
as Python division requires) returns `rss / actual` clamped to at most `1`,
i.e. `min 1 (rss / actual)`, which lies in `[0, 1]` whether `rss ≤ actual` or
`rss > actual`. -/
theorem C9_mem_usage_clamped (vm : DomainEntity) (rss actual : ℕ) (hact : 0 < actual) :
    get_usage_mem vm true (some (rss, actual)) = .ok (min 1 ((rss : ℚ) / actual)) ∧
    0 ≤ min 1 ((rss : ℚ) / actual) ∧ min 1 ((rss : ℚ) / actual) ≤ 1 := by
  have hnonneg : 0 ≤ (rss : ℚ) / actual := by positivity
  refine ⟨?_, le_min zero_le_one hnonneg, min_le_left _ _⟩
  have h1 : get_usage_mem vm true (some (rss, actual)) =
      if (rss : ℚ) / actual > 1 then .ok 1 else .ok ((rss : ℚ) / actual) := by
    simp [get_usage_mem]
  rw [h1]
  rcases lt_or_le 1 ((rss : ℚ) / actual) with hgt | hle
  · rw [if_pos hgt, min_eq_left hgt.le]
  · rw [if_neg (not_lt.mpr hle), min_eq_right hle]

/-- Witness for C9 at `rss = 5 > actual = 4`. -/
theorem C9_witness :
    get_usage_mem ⟨"u0", "vm0", 2048, 2, [[true]], 1, none⟩ true (some (5, 4)) =
      .ok (min 1 ((5 : ℚ) / 4)) ∧
    0 ≤ min 1 ((5 : ℚ) / 4) ∧ min 1 ((5 : ℚ) / 4) ≤ 1 :=
  C9_mem_usage_clamped ⟨"u0", "vm0", 2048, 2, [[true]], 1, none⟩ 5 4 (by decide)

/-- C3: `update_cpu_pinning` issues zero pin writes when every vCPU's
currently-read mask equals the template, and, when at least one mask differs,
issues exactly one write per vCPU (the write targets are exactly the vcpu
indices `0, ..., n-1` in order) repinning each to the template. -/
theorem C3_pinning_write_discipline (vm_pin : List (List Bool)) (template_pin : List Bool) :
    ((∀ m ∈ vm_pin, m = template_pin) → update_cpu_pinning vm_pin template_pin = []) ∧
    ((∃ m ∈ vm_pin, m ≠ template_pin) →
      (update_cpu_pinning vm_pin template_pin).map Prod.fst = List.range vm_pin.length ∧
      ∀ w ∈ update_cpu_pinning vm_pin template_pin, w.2 = template_pin) := by
  have heq : update_cpu_pinning vm_pin template_pin =
      if vm_pin.any (fun vcpu_pin => vcpu_pin ≠ template_pin) then
        (List.range vm_pin.length).map (fun vcpu => (vcpu, template_pin))
      else [] := rfl
  constructor
  · intro hall
    have hany : vm_pin.any (fun vcpu_pin => decide (vcpu_pin ≠ template_pin)) = false := by
      simp only [List.any_eq_false, decide_eq_true_eq, Decidable.not_not]
      exact hall
    rw [heq, hany]
    rfl
  · rintro ⟨m, hm, hne⟩
    have hany : vm_pin.any (fun vcpu_pin => decide (vcpu_pin ≠ template_pin)) = true := by
      simp only [List.any_eq_true, decide_eq_true_eq]
      exact ⟨m, hm, hne⟩
    rw [heq, hany]
    constructor
    · rw [if_pos rfl, List.map_map]
      simp [Function.comp_def]
    · intro w hw
      rw [if_pos rfl] at hw
      obtain ⟨v, _, rfl⟩ := List.mem_map.mp hw
      rfl

/-- Witness for C3: a two-vCPU VM already matching the template yields no
writes; one with a drifted vCPU yields one write per vCPU. -/
theorem C3_witness :
    update_cpu_pinning [[true, false], [true, false]] [true, false] = [] ∧
    (update_cpu_pinning [[true, true], [true, false]] [true, false]).map Prod.fst =
      List.range [[true, true], [true, false]].length ∧
    ∀ w ∈ update_cpu_pinning [[true, true], [true, false]] [true, false],
      w.2 = [true, false] := by
  refine ⟨(C3_pinning_write_discipline _ _).1 (by decide), ?_⟩
  exact (C3_pinning_write_discipline [[true, true], [true, false]] [true, false]).2
    ⟨[true, true], by decide, by decide⟩

/-- Folding Python's index assignments over `cpu_list` from any accumulator of
sufficient length succeeds and sets exactly the listed indices to `true`. -/
theorem list_assign_fold_spec (cpu_list : List ℕ) (acc : List Bool)
    (h : ∀ id ∈ cpu_list, id < acc.length) :
    ∃ t, List.foldlM list_assign_true acc cpu_list = some t ∧
      t.length = acc.length ∧
      ∀ i, t[i]? = acc[i]?.map (fun b => b || decide (i ∈ cpu_list)) := by
  induction cpu_list generalizing acc with
  | nil => exact ⟨acc, rfl, rfl, fun i => by simp⟩
  | cons a l ih =>
    have ha : a < acc.length := h a (List.mem_cons_self a l)
    have hstep : list_assign_true acc a = some (acc.set a true) := by
      simp [list_assign_true, ha]
    obtain ⟨t, ht, hlen, hget⟩ := ih (acc.set a true) (fun id hid => by
      rw [List.length_set]; exact h id (List.mem_cons_of_mem a hid))
    refine ⟨t, ?_, by rw [hlen, List.length_set], ?_⟩
    · simp only [List.foldlM, hstep, Option.some_bind]
      exact ht
    · intro i
      rw [hget i, List.getElem?_set]
      by_cases hia : a = i
      · subst hia
        rw [if_pos rfl, if_pos ha]
        obtain ⟨b, hb⟩ : ∃ b, acc[a]? = some b :=
          ⟨acc[a], List.getElem?_eq_getElem ha⟩
        rw [hb]
        simp
      · rw [if_neg hia]
        have hia' : ¬ i = a := fun hc => hia hc.symm
        cases hacc : acc[i]? <;> simp [List.mem_cons, hia']

/-- Folding Python's index assignments fails (IndexError) as soon as some
listed index is out of range of the accumulator. -/
theorem list_assign_fold_fail (cpu_list : List ℕ) (acc : List Bool)
    (h : ∃ id ∈ cpu_list, acc.length ≤ id) :
    List.foldlM list_assign_true acc cpu_list = none := by
  induction cpu_list generalizing acc with
  | nil =>
    obtain ⟨id, hid, _⟩ := h
    cases hid
  | cons a l ih =>
    by_cases ha : a < acc.length
    · have hstep : list_assign_true acc a = some (acc.set a true) := by
        simp [list_assign_true, ha]
      obtain ⟨id, hid, hge⟩ := h
      rcases List.mem_cons.mp hid with rfl | hmem
      · omega
      · simp only [List.foldlM, hstep, Option.some_bind]
        exact ih (acc.set a true) ⟨id, hmem, by rwa [List.length_set]⟩
    · have hstep : list_assign_true acc a = none := by
        simp [list_assign_true, ha]
      simp only [List.foldlM, hstep]
      rfl

/-- C5: `build_cpu_pinning` is pure; for an authorized-CPU list whose ids are
all below the host core count it returns a boolean vector of length
`host_config` that is `true` at exactly the indices present in the list and
`false` elsewhere; if any id is `≥ host_config` it fails loudly (IndexError,
modelled `none`) instead of silently truncating. -/
theorem C5_build_template_exact (cpu_list : List ℕ) (host_config : ℕ) :
    ((∀ id ∈ cpu_list, id < host_config) →
      ∃ t, build_cpu_pinning cpu_list host_config = some t ∧
        t.length = host_config ∧
        ∀ i, i < host_config → t[i]? = some (decide (i ∈ cpu_list))) ∧
    ((∃ id ∈ cpu_list, host_config ≤ id) →
      build_cpu_pinning cpu_list host_config = none) := by
  constructor
  · intro hin
    obtain ⟨t, ht, hlen, hget⟩ := list_assign_fold_spec cpu_list
      (List.replicate host_config false) (by simpa using hin)
    refine ⟨t, ht, by simpa using hlen, fun i hi => ?_⟩
    rw [hget i, List.getElem?_replicate, if_pos hi]
    simp
  · intro hex
    exact list_assign_fold_fail cpu_list (List.replicate host_config false)
      (by simpa using hex)

/-- Witness for C5 at the spec's example `{2, 5}` with 8 host cores, and the
out-of-range id 8. -/
theorem C5_witness :
    (∃ t, build_cpu_pinning [2, 5] 8 = some t ∧ t.length = 8 ∧
      ∀ i, i < 8 → t[i]? = some (decide (i ∈ [2, 5]))) ∧
    build_cpu_pinning [2, 8] 8 = none :=
  ⟨(C5_build_template_exact [2, 5] 8).1 (by decide),
   (C5_build_template_exact [2, 8] 8).2 ⟨8, by decide, by decide⟩⟩

/-- Branch characterization of `convert_to_entitydomain` without `force_update`. -/
theorem convert_false_eq (cache : Cache) (vd : VirDomain) (dr : ℚ) :
    convert_to_entitydomain cache vd dr false =
      match cache_get cache vd.uuid with
      | some cached => ⟨cached, cache, 0, []⟩
      | none => ⟨read_entity vd dr, cache_put cache vd.uuid (read_entity vd dr),
          if ¬ vd.has_oversub then 1 else 0,
          if ¬ vd.has_oversub then [vd.name] else []⟩ := rfl

/-- Branch characterization of `convert_to_entitydomain` with `force_update`:
the cache is bypassed and the entity rebuilt from the hypervisor reads. -/
theorem convert_true_eq (cache : Cache) (vd : VirDomain) (dr : ℚ) :
    convert_to_entitydomain cache vd dr true =
      ⟨read_entity vd dr, cache_put cache vd.uuid (read_entity vd dr),
        if ¬ vd.has_oversub then 1 else 0,
        if ¬ vd.has_oversub then [vd.name] else []⟩ := rfl

/-- A cache hit without `force_update` returns the cached entity and performs
no write, no warning, and no cache change. -/
theorem convert_cached (cache : Cache) (vd : VirDomain) (dr : ℚ) (e : DomainEntity)
    (h : cache_get cache vd.uuid = some e) :
    convert_to_entitydomain cache vd dr false = ⟨e, cache, 0, []⟩ := by
  rw [convert_false_eq, h]

/-- A cache miss without `force_update` takes the fresh branch. -/
theorem convert_fresh (cache : Cache) (vd : VirDomain) (dr : ℚ)
    (h : cache_get cache vd.uuid = none) :
    convert_to_entitydomain cache vd dr false =
      ⟨read_entity vd dr, cache_put cache vd.uuid (read_entity vd dr),
        if ¬ vd.has_oversub then 1 else 0,
        if ¬ vd.has_oversub then [vd.name] else []⟩ := by
  rw [convert_false_eq, h]

/-- Looking up the key just written into the cache yields the written entity. -/
theorem cache_get_put (cache : Cache) (uuid : String) (e : DomainEntity) :
    cache_get (cache_put cache uuid e) uuid = some e := by
  simp [cache_get, cache_put, List.lookup]

/-- After any `convert_to_entitydomain` call, the handle's uuid is cached and
maps to the returned entity. -/
theorem convert_caches_entity (cache : Cache) (vd : VirDomain) (dr : ℚ) (f : Bool) :
    cache_get (convert_to_entitydomain cache vd dr f).cache vd.uuid =
      some (convert_to_entitydomain cache vd dr f).entity := by
  cases f
  · rw [convert_false_eq]
    cases h : cache_get cache vd.uuid with
    | some e => simpa using h
    | none => simp [cache_get_put]
  · rw [convert_true_eq]
    simp [cache_get_put]

/-- C4: after a first resolution, a second `convert_to_entitydomain` on the
same uuid without `force_update` returns the identical cached entity with the
cache unchanged and no descriptor write or warning, whatever the hypervisor
would now report (`vd2` arbitrary); with `force_update` it returns the freshly
populated `read_entity vd2 dr2` and overwrites the cache entry with it, even
when `vd2` equals the originally read data. -/
theorem C4_resolve_cache_identity (cache : Cache) (vd vd2 : VirDomain) (dr dr2 : ℚ)
    (huuid : vd2.uuid = vd.uuid) :
    (convert_to_entitydomain (convert_to_entitydomain cache vd dr false).cache vd2 dr2 false =
      ⟨(convert_to_entitydomain cache vd dr false).entity,
       (convert_to_entitydomain cache vd dr false).cache, 0, []⟩) ∧
    ((convert_to_entitydomain (convert_to_entitydomain cache vd dr false).cache
        vd2 dr2 true).entity = read_entity vd2 dr2 ∧
     cache_get (convert_to_entitydomain (convert_to_entitydomain cache vd dr false).cache
        vd2 dr2 true).cache vd.uuid = some (read_entity vd2 dr2)) := by
  have hc := convert_caches_entity cache vd dr false
  refine ⟨?_, ?_, ?_⟩
  · apply convert_cached
    rw [huuid]
    exact hc
  · rw [convert_true_eq]
  · rw [convert_true_eq, ← huuid]
    exact cache_get_put _ _ _

/-- Witness for C4 resolving the same handle twice, then with `force_update`. -/
theorem C4_witness :
    (convert_to_entitydomain (convert_to_entitydomain [] vd_oversub 1 false).cache
        vd_oversub 1 false =
      ⟨(convert_to_entitydomain [] vd_oversub 1 false).entity,
       (convert_to_entitydomain [] vd_oversub 1 false).cache, 0, []⟩) ∧
    ((convert_to_entitydomain (convert_to_entitydomain [] vd_oversub 1 false).cache
        vd_oversub 1 true).entity = read_entity vd_oversub 1 ∧
     cache_get (convert_to_entitydomain (convert_to_entitydomain [] vd_oversub 1 false).cache
        vd_oversub 1 true).cache vd_oversub.uuid = some (read_entity vd_oversub 1)) :=
  C4_resolve_cache_identity [] vd_oversub vd_oversub 1 1 rfl

/-- C6: a fresh (uncached) resolution of a VM whose descriptor lacks an
oversubscription ratio yields an entity carrying the generated default ratio,
exactly one descriptor write attempt, and exactly one warning naming the VM;
moreover every `convert_to_entitydomain` call that issues any descriptor write
is in that branch: its handle lacked the ratio and it was not served from the
cache (forced, or a cache miss). -/
theorem C6_default_ratio_side_effects (cache : Cache) (vd : VirDomain) (dr : ℚ)
    (hfresh : cache_get cache vd.uuid = none) (hmiss : vd.has_oversub = false) :
    ((convert_to_entitydomain cache vd dr false).entity.cpu_ratio = dr ∧
     (convert_to_entitydomain cache vd dr false).descriptor_writes = 1 ∧
     (convert_to_entitydomain cache vd dr false).warnings = [vd.name]) ∧
    ∀ (cache2 : Cache) (vd2 : VirDomain) (dr2 : ℚ) (f : Bool),
      (convert_to_entitydomain cache2 vd2 dr2 f).descriptor_writes ≠ 0 →
      vd2.has_oversub = false ∧ (f = true ∨ cache_get cache2 vd2.uuid = none) := by
  constructor
  · rw [convert_fresh cache vd dr hfresh]
    refine ⟨?_, ?_, ?_⟩ <;> simp [read_entity, hmiss]
  · intro cache2 vd2 dr2 f hw
    cases f
    · cases h : cache_get cache2 vd2.uuid with
      | some e => rw [convert_cached cache2 vd2 dr2 e h] at hw; exact absurd rfl hw
      | none =>
        refine ⟨?_, Or.inr rfl⟩
        rw [convert_fresh cache2 vd2 dr2 h] at hw
        cases hov : vd2.has_oversub
        · rfl
        · rw [hov] at hw
          simp at hw
    · refine ⟨?_, Or.inl rfl⟩
      rw [convert_true_eq] at hw
      cases hov : vd2.has_oversub
      · rfl
      · rw [hov] at hw
        simp at hw

/-- Witness for C6 on a fresh resolution of `vd_missing` with default ratio 1. -/
theorem C6_witness :
    ((convert_to_entitydomain [] vd_missing 1 false).entity.cpu_ratio = 1 ∧
     (convert_to_entitydomain [] vd_missing 1 false).descriptor_writes = 1 ∧
     (convert_to_entitydomain [] vd_missing 1 false).warnings = [vd_missing.name]) ∧
    ∀ (cache2 : Cache) (vd2 : VirDomain) (dr2 : ℚ) (f : Bool),
      (convert_to_entitydomain cache2 vd2 dr2 f).descriptor_writes ≠ 0 →
      vd2.has_oversub = false ∧ (f = true ∨ cache_get cache2 vd2.uuid = none) :=
  C6_default_ratio_side_effects [] vd_missing 1 rfl rfl

/-- C10: force-refreshing a cached entity that already holds a usage sample
replaces the cache entry with a freshly constructed entity carrying no sample
and re-read capacity, pin state and metadata; the next `get_usage_cpu` call on
the refreshed entity therefore returns `none` ("no value") again. -/
theorem C10_force_refresh_discards_sample (cache : Cache) (vd : VirDomain) (dr : ℚ)
    (e : DomainEntity) (s : TimeSample) (epoch_ns total system user : ℤ)
    (hc : cache_get cache vd.uuid = some e) (hs : e.last_sample = some s) :
    cache_get (convert_to_entitydomain cache vd dr true).cache vd.uuid =
      some (convert_to_entitydomain cache vd dr true).entity ∧
    (convert_to_entitydomain cache vd dr true).entity.last_sample = none ∧
    (convert_to_entitydomain cache vd dr true).entity.mem = vd.maxMemory ∧
    (convert_to_entitydomain cache vd dr true).entity.cpu = vd.maxVcpus ∧
    (convert_to_entitydomain cache vd dr true).entity.cpu_pin = vd.vcpuPinInfo ∧
    get_usage_cpu (convert_to_entitydomain cache vd dr true).entity true epoch_ns
        (some (total, system, user)) =
      .ok (none, ((convert_to_entitydomain cache vd dr true).entity).set_time
        epoch_ns total system user) := by
  refine ⟨convert_caches_entity cache vd dr true, ?_⟩
  rw [convert_true_eq]
  refine ⟨rfl, rfl, rfl, rfl, ?_⟩
  simp [get_usage_cpu, read_entity]

/-- Witness for C10: a cached entity holding a sample, force-refreshed. -/
theorem C10_witness :
    cache_get (convert_to_entitydomain
        [("u0", ⟨"u0", "vm0", 2048, 2, [[true]], 3, some ⟨0, 0, 0, 0⟩⟩)]
        vd_oversub 1 true).cache vd_oversub.uuid =
      some (convert_to_entitydomain
        [("u0", ⟨"u0", "vm0", 2048, 2, [[true]], 3, some ⟨0, 0, 0, 0⟩⟩)]
        vd_oversub 1 true).entity ∧
    (convert_to_entitydomain
        [("u0", ⟨"u0", "vm0", 2048, 2, [[true]], 3, some ⟨0, 0, 0, 0⟩⟩)]
        vd_oversub 1 true).entity.last_sample = none ∧
    (convert_to_entitydomain
        [("u0", ⟨"u0", "vm0", 2048, 2, [[true]], 3, some ⟨0, 0, 0, 0⟩⟩)]
        vd_oversub 1 true).entity.mem = vd_oversub.maxMemory ∧
    (convert_to_entitydomain
        [("u0", ⟨"u0", "vm0", 2048, 2, [[true]], 3, some ⟨0, 0, 0, 0⟩⟩)]
        vd_oversub 1 true).entity.cpu = vd_oversub.maxVcpus ∧
    (convert_to_entitydomain
        [("u0", ⟨"u0", "vm0", 2048, 2, [[true]], 3, some ⟨0, 0, 0, 0⟩⟩)]
        vd_oversub 1 true).entity.cpu_pin = vd_oversub.vcpuPinInfo ∧
    get_usage_cpu (convert_to_entitydomain
        [("u0", ⟨"u0", "vm0", 2048, 2, [[true]], 3, some ⟨0, 0, 0, 0⟩⟩)]
        vd_oversub 1 true).entity true 5 (some (7, 2, 3)) =
      .ok (none, ((convert_to_entitydomain
        [("u0", ⟨"u0", "vm0", 2048, 2, [[true]], 3, some ⟨0, 0, 0, 0⟩⟩)]
        vd_oversub 1 true).entity).set_time 5 7 2 3) :=
  C10_force_refresh_discards_sample
    [("u0", ⟨"u0", "vm0", 2048, 2, [[true]], 3, some ⟨0, 0, 0, 0⟩⟩)]
    vd_oversub 1 ⟨"u0", "vm0", 2048, 2, [[true]], 3, some ⟨0, 0, 0, 0⟩⟩
    ⟨0, 0, 0, 0⟩ 5 7 2 3 rfl rfl

/-- With a stored sample, `get_usage_cpu` returns the delta rate normalized by
the vCPU count and clamped from above at `1` (`min 1`), and stores the new
sample. -/
theorem get_usage_cpu_eq_of_sample (vm : DomainEntity) (prev : TimeSample)
    (epoch_ns total system user : ℤ) (hsample : vm.last_sample = some prev) :
    get_usage_cpu vm true epoch_ns (some (total, system, user)) =
      .ok (some (min 1 (((total : ℚ) - prev.total) / ((epoch_ns : ℚ) - prev.epoch_ns)
          / (vm.cpu : ℚ))),
        vm.set_time epoch_ns total system user) := by
  obtain ⟨u, n, m, c, p, ra, ls⟩ := vm
  have hls : ls = some prev := hsample
  subst hls
  have h0 : get_usage_cpu ⟨u, n, m, c, p, ra, some prev⟩ true epoch_ns
      (some (total, system, user)) =
      .ok (if 1 < ((total : ℚ) - prev.total) / ((epoch_ns : ℚ) - prev.epoch_ns) / (c : ℚ)
          then some 1
          else some (((total : ℚ) - prev.total) / ((epoch_ns : ℚ) - prev.epoch_ns) / (c : ℚ)),
        DomainEntity.set_time ⟨u, n, m, c, p, ra, some prev⟩ epoch_ns total system user) := rfl
  rw [h0]
  rcases lt_or_le 1 (((total : ℚ) - prev.total) / ((epoch_ns : ℚ) - prev.epoch_ns) / (c : ℚ))
    with hgt | hle
  · rw [if_pos hgt, min_eq_left hgt.le]
  · rw [if_neg (not_lt.mpr hle), min_eq_right hle]

/-- C1 counterexample: with a previous sample whose counter exceeds the new
raw counter value (negative counter delta, positive time delta), the code
returns `-10`, which is not in `[0, 1]`: only the upper bound is clamped. -/
theorem C1_counterexample :
    get_usage_cpu ⟨"u0", "vm0", 2048, 1, [[true]], 3, some ⟨0, 100, 0, 0⟩⟩ true 10
        (some (0, 0, 0)) =
      .ok (some (-10), ⟨"u0", "vm0", 2048, 1, [[true]], 3, some ⟨10, 0, 0, 0⟩⟩) ∧
    ¬ (0 ≤ (-10 : ℚ) ∧ (-10 : ℚ) ≤ 1) := by
  constructor
  · rw [get_usage_cpu_eq_of_sample
      ⟨"u0", "vm0", 2048, 1, [[true]], 3, some ⟨0, 100, 0, 0⟩⟩ ⟨0, 100, 0, 0⟩ 10 0 0 0 rfl]
    show Except.ok (some (min 1 ((((0 : ℤ) : ℚ) - ((100 : ℤ) : ℚ)) /
        (((10 : ℤ) : ℚ) - ((0 : ℤ) : ℚ)) / ((1 : ℕ) : ℚ))),
      DomainEntity.set_time ⟨"u0", "vm0", 2048, 1, [[true]], 3, some ⟨0, 100, 0, 0⟩⟩ 10 0 0 0) = _
    have harith : (((0 : ℤ) : ℚ) - ((100 : ℤ) : ℚ)) / (((10 : ℤ) : ℚ) - ((0 : ℤ) : ℚ)) /
        ((1 : ℕ) : ℚ) = -10 := by norm_num
    rw [harith, min_eq_right (by norm_num : (-10 : ℚ) ≤ 1)]
    rfl
  · norm_num

/-- C1 amended: on an entity with a stored sample, a successful
`get_usage_cpu` call returns a value in `[0, 1]` whenever the counter delta is
nonnegative and the time delta is positive (and the vCPU count is positive);
the code clamps only the upper bound, so deltas of opposite sign can produce a
negative return value. -/
theorem C1_usage_cpu_in_unit_interval (vm e2 : DomainEntity) (prev : TimeSample)
    (epoch_ns total system user : ℤ) (r : ℚ)
    (hsample : vm.last_sample = some prev)
    (hcpu : 0 < vm.cpu)
    (htime : prev.epoch_ns < epoch_ns)
    (hcounter : prev.total ≤ total)
    (h : get_usage_cpu vm true epoch_ns (some (total, system, user)) = .ok (some r, e2)) :
    0 ≤ r ∧ r ≤ 1 := by
  have hnorm : 0 ≤ ((total : ℚ) - prev.total) / ((epoch_ns : ℚ) - prev.epoch_ns) / (vm.cpu : ℚ) := by
    apply div_nonneg (div_nonneg ?_ ?_) ?_
    · have hq : (prev.total : ℚ) ≤ (total : ℚ) := by exact_mod_cast hcounter
      linarith
    · have hq : (prev.epoch_ns : ℚ) < (epoch_ns : ℚ) := by exact_mod_cast htime
      linarith
    · positivity
  rw [get_usage_cpu_eq_of_sample vm prev epoch_ns total system user hsample] at h
  simp only [Except.ok.injEq, Prod.mk.injEq, Option.some.injEq] at h
  obtain ⟨hr, -⟩ := h
  subst hr
  exact ⟨le_min zero_le_one hnorm, min_le_left _ _⟩

/-- Witness for the amended C1: vCPU count 2, counter delta 2 over time delta
4 gives usage 1/4 in `[0, 1]`. -/
theorem C1_witness : (0 : ℚ) ≤ 1 / 4 ∧ (1 / 4 : ℚ) ≤ 1 :=
  C1_usage_cpu_in_unit_interval
    (⟨"u0", "vm0", 2048, 2, [[true]], 3, some ⟨0, 0, 0, 0⟩⟩ : DomainEntity)
    ((⟨"u0", "vm0", 2048, 2, [[true]], 3, some ⟨0, 0, 0, 0⟩⟩ : DomainEntity).set_time 4 2 1 1)
    ⟨0, 0, 0, 0⟩ 4 2 1 1 (1 / 4)
    rfl (by decide) (by decide) (by decide)
    (by
      rw [get_usage_cpu_eq_of_sample
        ⟨"u0", "vm0", 2048, 2, [[true]], 3, some ⟨0, 0, 0, 0⟩⟩ ⟨0, 0, 0, 0⟩ 4 2 1 1 rfl]
      show Except.ok (some (min 1 ((((2 : ℤ) : ℚ) - ((0 : ℤ) : ℚ)) /
          (((4 : ℤ) : ℚ) - ((0 : ℤ) : ℚ)) / ((2 : ℕ) : ℚ))),
        DomainEntity.set_time ⟨"u0", "vm0", 2048, 2, [[true]], 3, some ⟨0, 0, 0, 0⟩⟩ 4 2 1 1) = _
      have harith : (((2 : ℤ) : ℚ) - ((0 : ℤ) : ℚ)) / (((4 : ℤ) : ℚ) - ((0 : ℤ) : ℚ)) /
          ((2 : ℕ) : ℚ) = 1 / 4 := by norm_num
      rw [harith, min_eq_right (by norm_num : (1 / 4 : ℚ) ≤ 1)])

/-- Unfolding of `run_tick` into its two branches. -/
theorem run_tick_eq (delay launch_at time_begin d : ℚ) :
    run_tick delay launch_at time_begin d =
      if delay * 10 ^ 9 - d > 0 then
        ⟨time_begin, Int.floor ((time_begin - launch_at) / 10 ^ 9),
          (delay * 10 ^ 9 - d) / 10 ^ 9, none⟩
      else
        ⟨time_begin, Int.floor ((time_begin - launch_at) / 10 ^ 9), 0,
          some (-((delay * 10 ^ 9 - d) / 10 ^ 9))⟩ := rfl

/-- One tick body duration plus the following sleep advances the wall clock by
exactly `max (delay * 10^9) d` nanoseconds: the loop resumes at the scheduled
instant after an underrun and immediately after an overrun. -/
theorem run_tick_advance (delay launch_at time_begin d : ℚ) :
    d + (run_tick delay launch_at time_begin d).sleep_s * 10 ^ 9 =
      max (delay * 10 ^ 9) d := by
  rw [run_tick_eq]
  by_cases h : delay * 10 ^ 9 - d > 0
  · rw [if_pos h]
    show d + (delay * 10 ^ 9 - d) / 10 ^ 9 * 10 ^ 9 = max (delay * 10 ^ 9) d
    rw [div_mul_cancel₀ _ (by norm_num : (10 : ℚ) ^ 9 ≠ 0),
      max_eq_left (by linarith)]
    ring
  · rw [if_neg h]
    show d + 0 * 10 ^ 9 = max (delay * 10 ^ 9) d
    rw [max_eq_right (by linarith [not_lt.mp h])]
    ring

/-- The loop produces exactly one tick result per tick body duration: no tick
is skipped. -/
theorem run_loop_length (delay launch_at : ℚ) (ds : List ℚ) :
    ∀ t0, (run_loop delay launch_at t0 ds).length = ds.length := by
  induction ds with
  | nil => intro t0; rfl
  | cons d ds ih =>
    intro t0
    simp only [run_loop, List.length_cons, ih]

/-- The `i`-th tick of the loop is a `run_tick` whose start instant is the
launch-side start plus the scheduled advances of all earlier ticks. -/
theorem run_loop_getElem (delay launch_at : ℚ) (ds : List ℚ) :
    ∀ (t0 : ℚ) (i : ℕ) (d : ℚ), ds[i]? = some d →
      (run_loop delay launch_at t0 ds)[i]? =
        some (run_tick delay launch_at
          (t0 + ((ds.take i).map (fun x => max (delay * 10 ^ 9) x)).sum) d) := by
  induction ds with
  | nil =>
    intro t0 i d hd
    simp at hd
  | cons a l ih =>
    intro t0 i d hd
    cases i with
    | zero =>
      simp only [List.getElem?_cons_zero, Option.some.injEq] at hd
      subst hd
      simp [run_loop]
    | succ n =>
      simp only [List.getElem?_cons_succ] at hd
      have hrec := ih (t0 + a + (run_tick delay launch_at t0 a).sleep_s * 10 ^ 9) n d hd
      have harg : t0 + a + (run_tick delay launch_at t0 a).sleep_s * 10 ^ 9 +
          ((l.take n).map (fun x => max (delay * 10 ^ 9) x)).sum =
          t0 + (((a :: l).take (n + 1)).map (fun x => max (delay * 10 ^ 9) x)).sum := by
        rw [List.take_succ_cons, List.map_cons, List.sum_cons,
          ← run_tick_advance delay launch_at t0 a]
        ring
      rw [harg] at hrec
      simp only [run_loop, List.getElem?_cons_succ]
      exact hrec

/-- C7: over any finite prefix of `SchedulerLocal.run` with tick body durations
`ds` (ns), no tick is skipped; a tick whose body ran shorter than the delay
sleeps exactly the remaining budget and warns nothing; a tick whose body
overran the delay does not sleep and warns with exactly the overrun magnitude
in seconds; every tick starts at the instant reached by the previous body and
sleep (immediate proceed, fixed launch reference), and its
`time_since_launch` argument is the floor of the true wall-clock seconds since
launch at that instant. -/
theorem C7_loop_cadence (delay launch_at t0 : ℚ) (ds : List ℚ) :
    (run_loop delay launch_at t0 ds).length = ds.length ∧
    ∀ (i : ℕ) (d : ℚ) (tr : TickResult), ds[i]? = some d →
      (run_loop delay launch_at t0 ds)[i]? = some tr →
      (d < delay * 10 ^ 9 →
        tr.sleep_s = (delay * 10 ^ 9 - d) / 10 ^ 9 ∧ tr.overlap_warning = none) ∧
      (delay * 10 ^ 9 < d →
        tr.sleep_s = 0 ∧ tr.overlap_warning = some ((d - delay * 10 ^ 9) / 10 ^ 9)) ∧
      tr.time_begin = t0 + ((ds.take i).map (fun x => max (delay * 10 ^ 9) x)).sum ∧
      tr.time_since_launch = Int.floor ((tr.time_begin - launch_at) / 10 ^ 9) := by
  refine ⟨run_loop_length delay launch_at ds t0, ?_⟩
  intro i d tr hd htr
  rw [run_loop_getElem delay launch_at ds t0 i d hd, Option.some.injEq] at htr
  subst htr
  rw [run_tick_eq]
  by_cases h : delay * 10 ^ 9 - d > 0
  · rw [if_pos h]
    exact ⟨fun _ => ⟨rfl, rfl⟩, fun hlt => absurd hlt (by linarith), rfl, rfl⟩
  · rw [if_neg h]
    refine ⟨fun hlt => absurd (by linarith : (0 : ℚ) < delay * 10 ^ 9 - d) h,
      fun _ => ⟨rfl, ?_⟩, rfl, rfl⟩
    rw [← neg_div, neg_sub]

/-- Witness for C7: delay 1 s, first tick body 1.5 s (overrun), second tick
body 0.5 s; the second tick starts at 1.5 s wall clock, reports elapsed 1 s,
and sleeps the remaining half budget. -/
theorem C7_witness :
    (run_loop 1 0 0 [3 / 2 * 10 ^ 9, 10 ^ 9 / 2]).length = 2 ∧
    (⟨3 / 2 * 10 ^ 9, 1, 1 / 2, none⟩ : TickResult).sleep_s =
      ((1 : ℚ) * 10 ^ 9 - 10 ^ 9 / 2) / 10 ^ 9 ∧
    (⟨3 / 2 * 10 ^ 9, 1, 1 / 2, none⟩ : TickResult).overlap_warning = none ∧
    (⟨3 / 2 * 10 ^ 9, 1, 1 / 2, none⟩ : TickResult).time_begin =
      0 + (([3 / 2 * 10 ^ 9, 10 ^ 9 / 2].take 1).map
        (fun x => max ((1 : ℚ) * 10 ^ 9) x)).sum ∧
    (⟨3 / 2 * 10 ^ 9, 1, 1 / 2, none⟩ : TickResult).time_since_launch =
      Int.floor (((⟨3 / 2 * 10 ^ 9, 1, 1 / 2, none⟩ : TickResult).time_begin - 0) / 10 ^ 9) := by
  have hT : (0 : ℚ) + (([3 / 2 * 10 ^ 9, 10 ^ 9 / 2].take 1).map
      (fun x => max ((1 : ℚ) * 10 ^ 9) x)).sum = 3 / 2 * 10 ^ 9 := by
    have hmax : max ((1 : ℚ) * 10 ^ 9) (3 / 2 * 10 ^ 9) = 3 / 2 * 10 ^ 9 :=
      max_eq_right (by norm_num)
    simp only [List.take_succ_cons, List.take_zero, List.map_cons, List.map_nil,
      List.sum_cons, List.sum_nil, hmax]
    ring
  have htr : (run_loop 1 0 0 [3 / 2 * 10 ^ 9, 10 ^ 9 / 2])[1]? =
      some ⟨3 / 2 * 10 ^ 9, 1, 1 / 2, none⟩ := by
    rw [run_loop_getElem 1 0 [3 / 2 * 10 ^ 9, 10 ^ 9 / 2] 0 1 (10 ^ 9 / 2) rfl, hT,
      run_tick_eq, if_pos (by norm_num : (1 : ℚ) * 10 ^ 9 - 10 ^ 9 / 2 > 0),
      Option.some.injEq, TickResult.mk.injEq]
    refine ⟨rfl, ?_, by norm_num, rfl⟩
    rw [show ((3 / 2 * 10 ^ 9 : ℚ) - 0) / 10 ^ 9 = 3 / 2 by norm_num]
    have hfl : ((1 : ℤ) : ℚ) ≤ 3 / 2 ∧ (3 / 2 : ℚ) < 1 + 1 := by norm_num
    exact Int.floor_eq_iff.mpr hfl
  have h := C7_loop_cadence 1 0 0 [3 / 2 * 10 ^ 9, 10 ^ 9 / 2]
  have h2 := h.2 1 (10 ^ 9 / 2) ⟨3 / 2 * 10 ^ 9, 1, 1 / 2, none⟩ (by simp) htr
  exact ⟨h.1, (h2.1 (by norm_num)).1, (h2.1 (by norm_num)).2, h2.2.2.1, h2.2.2.2⟩
